import Mathlib

/-!
Verification of the PayPal REST client core (`types.go`) against its
natural-language specification.

The development shallow-embeds the relevant Go code:

* `expirationTime.UnmarshalJSON` (the relative-expiry codec for the token
  endpoint's `expires_in` field),
* `JSONTime.MarshalJSON` (the RFC-3339 timestamp codec),
* `ErrorResponse` and its `Error` method (the structured error shape),
* the `Client` token state and the `RequestNewTokenBeforeExpiresIn`
  safety margin, together with the token-manager and response-decoder
  behaviour that the repository implements outside `types.go` (those parts
  are modelled from the specification, as marked in their doc comments).

Machine integers are embedded as `Int`/`Nat` with explicit range checks
where Go's `int64` semantics matter; fallible Go code returns an explicit
error component; pointer fields that may be nil are embedded as `Option`.
-/

/-! ## A model of the JSON values seen by `encoding/json`

A decoded JSON document, as handed to an `UnmarshalJSON` method.  A number
token carries its literal text (Go's tokenizer guarantees the literal
satisfies the JSON number grammar, checked by `isValidNumber` below); a
string carries its unquoted content. -/

inductive Json where
  | num (lit : String)
  | str (s : String)
  | bool (b : Bool)
  | null
  | arr (elems : List Json)
  | obj (fields : List (String × Json))

/-- Decimal digit test, `'0' <= c && c <= '9'`. -/
def isDigitChar (c : Char) : Bool := decide ('0' ≤ c) && decide (c ≤ '9')

/-- Consume a (possibly empty) run of decimal digits, returning the rest. -/
def spanDigits : List Char → List Char
  | [] => []
  | c :: rest => if isDigitChar c then spanDigits rest else c :: rest

/-- Exponent tail of the JSON number grammar: after `e`/`E`, an optional
sign followed by digits, and nothing may remain. -/
def expPart (l : List Char) : Bool :=
  match l with
  | '+' :: rest => if rest = [] then false else decide (spanDigits rest = [])
  | '-' :: rest => if rest = [] then false else decide (spanDigits rest = [])
  | _ => decide (spanDigits l = [])

/-- Fraction and exponent tail of the JSON number grammar: an optional
`.digits` part, then an optional exponent part, then the end. -/
def fracExpPart (l : List Char) : Bool :=
  let l1 := match l with
    | '.' :: c :: rest => if isDigitChar c then spanDigits rest else l
    | _ => l
  match l1 with
  | 'e' :: c :: rest => expPart (c :: rest)
  | 'E' :: c :: rest => expPart (c :: rest)
  | _ => decide (l1 = [])

/-- Integer part of the JSON number grammar: `0`, or a nonzero digit
followed by digits, then the fraction/exponent tail. -/
def intPart : List Char → Bool
  | [] => false
  | c :: rest =>
    if c = '0' then fracExpPart rest
    else if decide ('1' ≤ c) && decide (c ≤ '9') then fracExpPart (spanDigits rest)
    else false

/-- Go `encoding/json`'s `isValidNumber`: the JSON number grammar
(RFC 7159 §6) — an optional minus sign, then the integer, fraction and
exponent parts. -/
def isValidNumber (s : String) : Bool :=
  match s.data with
  | [] => false
  | c :: rest => if c = '-' then intPart rest else intPart (c :: rest)

/-- Value of a big-endian list of decimal digit characters. -/
def digitsVal (l : List Char) : Nat :=
  l.foldl (fun a c => a * 10 + (c.toNat - 48)) 0

/-- Unsigned part of Go `strconv.ParseInt(s, 10, 64)` (its `ParseUint`
call plus the signed-cutoff checks): a nonempty run of decimal digits
whose value, with the requested sign, fits a signed 64-bit integer. -/
def parseInt64Core (neg : Bool) (ds : List Char) : Except String Int :=
  if ds = [] then .error "invalid syntax"
  else if ds.all isDigitChar then
    let v := digitsVal ds
    if neg then
      if v ≤ 2 ^ 63 then .ok (-(v : Int)) else .error "value out of range"
    else
      if v < 2 ^ 63 then .ok (v : Int) else .error "value out of range"
  else .error "invalid syntax"

/-- Go `strconv.ParseInt(s, 10, 64)`: an optional `+`/`-` sign followed by
a nonempty run of decimal digits whose value fits a signed 64-bit integer;
anything else is a syntax or range error. -/
def parseInt64 (s : String) : Except String Int :=
  match s.data with
  | [] => .error "invalid syntax"
  | c :: rest =>
    if c = '+' then parseInt64Core false rest
    else if c = '-' then parseInt64Core true rest
    else parseInt64Core false (c :: rest)

/-- Go `json.Unmarshal(b, &n)` for a freshly declared `n json.Number`
(zero value `""`): a number token stores its literal, a string token is
accepted when its content satisfies the JSON number grammar, `null` is a
no-op that leaves the zero value, and every other token is a type error. -/
def unmarshalNumber : Json → Except String String
  | .num lit => .ok lit
  | .str s => if isValidNumber s then .ok s else .error "invalid number literal"
  | .null => .ok ""
  | _ => .error "cannot unmarshal into Number"

/-- The `expirationTime` type of `types.go` (`type expirationTime int64`). -/
abbrev expirationTime := Int

/-- `expirationTime.UnmarshalJSON` from `types.go`: decode the input into a
`json.Number`, then convert it with `Number.Int64`; only when both steps
succeed is the receiver overwritten.  The result is the receiver's value
after the call paired with the returned error (`none` = nil error). -/
def expirationTime.UnmarshalJSON (b : Json) (e : expirationTime) : expirationTime × Option String :=
  match unmarshalNumber b with
  | .error msg => (e, some msg)
  | .ok n =>
    match parseInt64 n with
    | .error msg => (e, some msg)
    | .ok i => (i, none)

example : expirationTime.UnmarshalJSON (Json.num "3600") 0 = (3600, none) := by decide
example : expirationTime.UnmarshalJSON (Json.str "3600") 7 = (3600, none) := by decide
example : (expirationTime.UnmarshalJSON (Json.num "36.5") 7).1 = 7 := by decide
example : (expirationTime.UnmarshalJSON (Json.str "abc") 7).2.isSome = true := by decide
example : (expirationTime.UnmarshalJSON (Json.str "-120") 7) = (-120, none) := by decide

/-! ## Claims about the relative-expiry codec -/

/-- A syntactic integer: an optional minus sign followed by a nonempty run
of decimal digits ("a bare integer or an integer encoded as a string"). -/
def isIntegerLit : List Char → Bool
  | [] => false
  | c :: rest =>
    if c = '-' then !rest.isEmpty && rest.all isDigitChar
    else (c :: rest).all isDigitChar

/-- An `expires_in` input that supplies an integer: a bare integer token
or a string holding an integer. -/
def isIntegerInput : Json → Bool
  | .num lit => isIntegerLit lit.data
  | .str s => isIntegerLit s.data
  | _ => false

/-- Well-formedness guaranteed by the tokenizer: a number token's literal
satisfies the JSON number grammar. -/
def jsonNumWellFormed : Json → Bool
  | .num lit => isValidNumber lit
  | _ => true

theorem parseInt64Core_ok (neg : Bool) (ds : List Char) (k : Int)
    (hp : parseInt64Core neg ds = .ok k) :
    ds ≠ [] ∧ ds.all isDigitChar = true := by
  unfold parseInt64Core at hp
  split at hp
  · exact absurd hp (by simp)
  · split at hp
    · refine ⟨by assumption, by assumption⟩
    · exact absurd hp (by simp)

theorem valid_parseInt64_integerLit (s : String) (k : Int)
    (hv : isValidNumber s = true) (hp : parseInt64 s = .ok k) :
    isIntegerLit s.data = true := by
  rcases hsd : s.data with _ | ⟨c, rest⟩ <;>
    simp only [isValidNumber, parseInt64, isIntegerLit, hsd] at hv hp ⊢
  · exact absurd hp (by simp)
  · by_cases hplus : c = '+'
    · subst hplus
      simp [intPart] at hv
    · rw [if_neg hplus] at hp
      by_cases hminus : c = '-'
      · subst hminus
        rw [if_pos rfl] at hp ⊢
        have h := parseInt64Core_ok true rest k hp
        simp [h.2, List.isEmpty_iff, h.1]
      · rw [if_neg hminus] at hp ⊢
        exact (parseInt64Core_ok false (c :: rest) k hp).2

/-- C4: a token response supplying `expires_in` as the bare JSON integer
`3600` or as the JSON string `"3600"` decodes to the integer 3600, and in
general the relative-expiry codec decodes a bare number token and the same
number wrapped in a string to the same result. -/
theorem C4_expires_in_codec_equivalence :
    (∀ e : expirationTime, expirationTime.UnmarshalJSON (Json.num "3600") e = (3600, none)) ∧
    (∀ e : expirationTime, expirationTime.UnmarshalJSON (Json.str "3600") e = (3600, none)) ∧
    (∀ (s : String) (e : expirationTime), isValidNumber s = true →
      expirationTime.UnmarshalJSON (Json.num s) e = expirationTime.UnmarshalJSON (Json.str s) e) := by
  refine ⟨fun e => rfl, fun e => rfl, fun s e hv => ?_⟩
  simp only [expirationTime.UnmarshalJSON, unmarshalNumber, hv, if_pos]

/-- Witness for C4 at the concrete literal `3600`. -/
theorem C4_expires_in_codec_equivalence_witness :
    expirationTime.UnmarshalJSON (Json.num "3600") 0
      = expirationTime.UnmarshalJSON (Json.str "3600") 0 :=
  C4_expires_in_codec_equivalence.2.2 "3600" 0 (by decide)

/-- C5: every `expires_in` input that is not an integer — neither a bare
integer token nor a string holding an integer (e.g. a fractional number or
a non-numeric string) — makes the relative-expiry codec return a decode
error. -/
theorem C5_expires_in_rejects_non_integers :
    ∀ (j : Json) (e : expirationTime), jsonNumWellFormed j = true →
      isIntegerInput j = false →
      ((expirationTime.UnmarshalJSON j e).2).isSome = true := by
  intro j e hw hni
  cases j with
  | num lit =>
    simp only [jsonNumWellFormed] at hw
    simp only [isIntegerInput] at hni
    simp only [expirationTime.UnmarshalJSON, unmarshalNumber]
    cases hp : parseInt64 lit with
    | error msg => simp
    | ok k => exact absurd (valid_parseInt64_integerLit lit k hw hp) (by simp [hni])
  | str s =>
    simp only [isIntegerInput] at hni
    by_cases hv : isValidNumber s = true
    · simp only [expirationTime.UnmarshalJSON, unmarshalNumber, hv, if_pos]
      cases hp : parseInt64 s with
      | error msg => simp
      | ok k => exact absurd (valid_parseInt64_integerLit s k hv hp) (by simp [hni])
    · simp only [expirationTime.UnmarshalJSON, unmarshalNumber,
        Bool.not_eq_true] at hv ⊢
      simp [hv]
  | bool b => simp [expirationTime.UnmarshalJSON, unmarshalNumber]
  | null =>
    have : expirationTime.UnmarshalJSON Json.null e = (e, some "invalid syntax") := rfl
    simp [this]
  | arr l => simp [expirationTime.UnmarshalJSON, unmarshalNumber]
  | obj l => simp [expirationTime.UnmarshalJSON, unmarshalNumber]

/-- Witness for C5 at the fractional literal `36.5`. -/
theorem C5_expires_in_rejects_non_integers_witness :
    ((expirationTime.UnmarshalJSON (Json.num "36.5") 0).2).isSome = true :=
  C5_expires_in_rejects_non_integers (Json.num "36.5") 0 (by decide) (by decide)

/-- C10: whenever the relative-expiry codec returns an error, the receiver
is left unchanged — the stored value is overwritten only after both the
`json.Number` decode and the 64-bit integer conversion succeed. -/
theorem C10_error_leaves_receiver_unchanged :
    ∀ (j : Json) (e : expirationTime),
      ((expirationTime.UnmarshalJSON j e).2).isSome = true →
      (expirationTime.UnmarshalJSON j e).1 = e := by
  intro j e h
  unfold expirationTime.UnmarshalJSON at h ⊢
  cases hn : unmarshalNumber j with
  | error msg => simp [hn]
  | ok n =>
    cases hp : parseInt64 n with
    | error msg => simp [hn, hp]
    | ok k => simp [hn, hp] at h

/-- Witness for C10: a boolean input errors and leaves the receiver at 5. -/
theorem C10_error_leaves_receiver_unchanged_witness :
    (expirationTime.UnmarshalJSON (Json.bool true) 5).1 = 5 :=
  C10_error_leaves_receiver_unchanged (Json.bool true) 5 (by decide)

/-! ## The timestamp codec (`JSONTime.MarshalJSON`)

`JSONTime` wraps a `time.Time`.  An instant is embedded as whole seconds
since the Unix epoch plus a sub-second nanosecond component; `Format` with
layout `time.RFC3339` renders only whole seconds.  The Gregorian
conversion follows the civil-calendar arithmetic the Go time package
implements (absolute days to year/month/day and back). -/

/-- An instant: seconds since the Unix epoch, plus nanoseconds in
`[0, 1e9)` below that second. -/
structure JSONTime where
  sec : Int
  nsec : Nat

/-- Proleptic-Gregorian date of a day count (days since 1970-01-01):
year, month (1-12) and day (1-31). -/
def civilFromDays (z : Int) : Int × Nat × Nat :=
  let zd := z + 719468
  let era := zd / 146097
  let doe := (zd % 146097).toNat
  let yoe := (doe - doe / 1460 + doe / 36524 - doe / 146096) / 365
  let y := (yoe : Int) + era * 400
  let doy := doe - (365 * yoe + yoe / 4 - yoe / 100)
  let mp := (5 * doy + 2) / 153
  let d := doy - (153 * mp + 2) / 5 + 1
  let m := if mp < 10 then mp + 3 else mp - 9
  (if m ≤ 2 then y + 1 else y, m, d)

/-- Day count (days since 1970-01-01) of a proleptic-Gregorian date. -/
def daysFromCivil (y : Int) (m d : Nat) : Int :=
  let yAdj := if m ≤ 2 then y - 1 else y
  let era := yAdj / 400
  let yoe := (yAdj - era * 400).toNat
  let doy := (153 * (if 2 < m then m - 3 else m + 9) + 2) / 5 + d - 1
  let doe := yoe * 365 + yoe / 4 - yoe / 100 + doy
  era * 146097 + (doe : Int) - 719468

/-- Decimal digit character for `d < 10`. -/
def digitChar (d : Nat) : Char := Char.ofNat (48 + d)

/-- Big-endian decimal digit characters of `n` (at least one digit), the
digit loop of the time package's `appendInt`.  The fuel argument bounds
the recursion; `n` itself always suffices. -/
def natToCharsAux : Nat → Nat → List Char
  | 0, n => [digitChar (n % 10)]
  | fuel + 1, n =>
    if n < 10 then [digitChar n]
    else natToCharsAux fuel (n / 10) ++ [digitChar (n % 10)]

/-- Big-endian decimal digit characters of `n`. -/
def natToChars (n : Nat) : List Char := natToCharsAux n n

/-- Left-pad a digit list with `'0'` to the given width. -/
def padChars (w : Nat) (l : List Char) : List Char :=
  List.replicate (w - l.length) '0' ++ l

/-- The time package's `appendInt(b, x, width)`: a minus sign for negative
values, then the decimal digits zero-padded to `width`. -/
def appendIntW (w : Nat) (x : Int) : List Char :=
  if x < 0 then '-' :: padChars w (natToChars (-x).toNat)
  else padChars w (natToChars x.toNat)

/-- `time.Time.UTC().Format(time.RFC3339)` on whole seconds: the UTC
calendar fields rendered as `YYYY-MM-DDThh:mm:ssZ`. -/
def rfc3339UTC (t : JSONTime) : List Char :=
  let days := t.sec / 86400
  let sod := (t.sec % 86400).toNat
  let ymd := civilFromDays days
  appendIntW 4 ymd.1 ++ ['-'] ++ appendIntW 2 (ymd.2.1 : Int) ++ ['-']
    ++ appendIntW 2 (ymd.2.2 : Int) ++ ['T']
    ++ appendIntW 2 ((sod / 3600 : Nat) : Int) ++ [':']
    ++ appendIntW 2 ((sod % 3600 / 60 : Nat) : Int) ++ [':']
    ++ appendIntW 2 ((sod % 60 : Nat) : Int) ++ ['Z']

/-- `JSONTime.MarshalJSON` from `types.go`:
`fmt.Sprintf("%s", time.Time(t).UTC().Format(time.RFC3339))` wrapped in
double quotes.  It never returns an error. -/
def JSONTime.MarshalJSON (t : JSONTime) : String :=
  ⟨'"' :: rfc3339UTC t ++ ['"']⟩

example : JSONTime.MarshalJSON ⟨0, 0⟩ = "\"1970-01-01T00:00:00Z\"" := by decide
example : JSONTime.MarshalJSON ⟨1234567890, 123⟩ = "\"2009-02-13T23:31:30Z\"" := by decide
example : JSONTime.MarshalJSON ⟨-86400, 0⟩ = "\"1969-12-31T00:00:00Z\"" := by decide

/-! ## Calendar arithmetic facts -/

set_option maxHeartbeats 1000000 in
theorem doe_split (doe e f g q a b c : Nat)
    (hble : doe < 146097)
    (he : 36524 * e ≤ doe) (he2 : doe < 36524 * (e + 1))
    (hf : 146096 * f ≤ doe) (hf2 : doe < 146096 * (f + 1))
    (hg : 1460 * g ≤ doe) (hg2 : doe < 1460 * (g + 1))
    (hq : q = doe - g + e - f)
    (ha : 365 * a ≤ q) (ha2 : q < 365 * (a + 1))
    (hb : 1460 * b ≤ q) (hb2 : q < 1460 * (b + 1))
    (hc : 36500 * c ≤ q) (hc2 : q < 36500 * (c + 1)) :
    365 * a + b - c ≤ doe ∧ doe ≤ 365 * a + b - c + 365 ∧ a ≤ 399 := by
  have he4 : e ≤ 4 := by omega
  have hf1 : f ≤ 1 := by omega
  have hA : e ≤ g := by omega
  have hB : q ≤ doe := by omega
  have hD : 36500 * (e - f) ≤ q := by omega
  have hG : c ≤ e - f := by
    interval_cases e <;> interval_cases f <;> omega
  have hC : b ≤ g := by omega
  have hF : g ≤ b + 1 := by
    interval_cases f <;> omega
  refine ⟨by omega, by omega, by omega⟩

theorem doy_reconstruct (doy : Nat) (h : doy ≤ 365) :
    (153 * (if 2 < (if (5 * doy + 2) / 153 < 10 then (5 * doy + 2) / 153 + 3
              else (5 * doy + 2) / 153 - 9)
            then (if (5 * doy + 2) / 153 < 10 then (5 * doy + 2) / 153 + 3
              else (5 * doy + 2) / 153 - 9) - 3
            else (if (5 * doy + 2) / 153 < 10 then (5 * doy + 2) / 153 + 3
              else (5 * doy + 2) / 153 - 9) + 9) + 2) / 5
      + (doy - (153 * ((5 * doy + 2) / 153) + 2) / 5 + 1) - 1 = doy := by
  split_ifs <;> omega

set_option maxHeartbeats 1000000 in
theorem nat_doe_reconstruct (doe : Nat) (hble : doe < 146097) :
    (let yoe := (doe - doe / 1460 + doe / 36524 - doe / 146096) / 365
     let doy := doe - (365 * yoe + yoe / 4 - yoe / 100)
     let mp := (5 * doy + 2) / 153
     let dd := doy - (153 * mp + 2) / 5 + 1
     let m := if mp < 10 then mp + 3 else mp - 9
     365 * yoe + yoe / 4 - yoe / 100 + ((153 * (if 2 < m then m - 3 else m + 9) + 2) / 5 + dd - 1)) = doe := by
  simp only
  have hdd4 : (doe - doe / 1460 + doe / 36524 - doe / 146096) / 365 / 4
      = (doe - doe / 1460 + doe / 36524 - doe / 146096) / 1460 := by
    rw [Nat.div_div_eq_div_mul]
  have hdd100 : (doe - doe / 1460 + doe / 36524 - doe / 146096) / 365 / 100
      = (doe - doe / 1460 + doe / 36524 - doe / 146096) / 36500 := by
    rw [Nat.div_div_eq_div_mul]
  rw [hdd4, hdd100]
  have hsplit := doe_split doe (doe / 36524) (doe / 146096) (doe / 1460)
      (doe - doe / 1460 + doe / 36524 - doe / 146096)
      ((doe - doe / 1460 + doe / 36524 - doe / 146096) / 365)
      ((doe - doe / 1460 + doe / 36524 - doe / 146096) / 1460)
      ((doe - doe / 1460 + doe / 36524 - doe / 146096) / 36500)
      hble (by omega) (by omega) (by omega) (by omega) (by omega) (by omega) rfl
      (by omega) (by omega) (by omega) (by omega) (by omega) (by omega)
  obtain ⟨hS1, hS2, -⟩ := hsplit
  generalize hS : 365 * ((doe - doe / 1460 + doe / 36524 - doe / 146096) / 365)
      + (doe - doe / 1460 + doe / 36524 - doe / 146096) / 1460
      - (doe - doe / 1460 + doe / 36524 - doe / 146096) / 36500 = S at hS1 hS2 ⊢
  have hrec := doy_reconstruct (doe - S) (by omega)
  rw [hrec]
  omega

set_option maxHeartbeats 1000000 in
theorem civil_roundtrip (z : Int) :
    daysFromCivil (civilFromDays z).1 (civilFromDays z).2.1 (civilFromDays z).2.2 = z := by
  unfold civilFromDays daysFromCivil
  simp only
  have h1 : ((z + 719468) % 146097).toNat < 146097 := by omega
  have h2 := nat_doe_reconstruct ((z + 719468) % 146097).toNat h1
  simp only at h2
  have h3 : ((((z + 719468) % 146097).toNat - ((z + 719468) % 146097).toNat / 1460
      + ((z + 719468) % 146097).toNat / 36524 - ((z + 719468) % 146097).toNat / 146096) / 365) ≤ 399 := by
    omega
  generalize hdoe : ((z + 719468) % 146097).toNat = doe at h2 h3 ⊢
  generalize hyoe : (doe - doe / 1460 + doe / 36524 - doe / 146096) / 365 = yoe at h2 h3 ⊢
  clear hyoe
  generalize hera : (z + 719468) / 146097 = era
  have hE : ((yoe : Int) + era * 400) / 400 = era := by omega
  split_ifs at h2 ⊢
  all_goals try simp only [Int.add_sub_cancel]
  all_goals rw [hE]
  all_goals simp only [Int.add_sub_cancel, Int.toNat_natCast]
  all_goals omega

theorem civil_month_day_bounds (z : Int) :
    1 ≤ (civilFromDays z).2.1 ∧ (civilFromDays z).2.1 ≤ 12 ∧
    1 ≤ (civilFromDays z).2.2 ∧ (civilFromDays z).2.2 ≤ 31 := by
  unfold civilFromDays
  simp only
  split <;> omega

theorem civil_year_bounds (z : Int) (h0 : -719162 ≤ z) (h1 : z ≤ 2932896) :
    0 ≤ (civilFromDays z).1 ∧ (civilFromDays z).1 ≤ 9999 := by
  unfold civilFromDays
  simp only
  split <;> split <;> omega

/-! ## Decimal rendering facts -/

theorem isDigitChar_digitChar (d : Nat) (h : d < 10) : isDigitChar (digitChar d) = true := by
  interval_cases d <;> decide

theorem digitChar_toNat (d : Nat) (h : d < 10) : (digitChar d).toNat = 48 + d := by
  interval_cases d <;> decide

theorem natToCharsAux_one (fuel n : Nat) (h : n < 10) :
    natToCharsAux fuel n = [digitChar n] := by
  rcases fuel with _ | f
  · unfold natToCharsAux
    rw [Nat.mod_eq_of_lt h]
  · unfold natToCharsAux
    rw [if_pos h]

theorem natToCharsAux_two (fuel n : Nat) (hf : 1 ≤ fuel) (h1 : 10 ≤ n) (h2 : n < 100) :
    natToCharsAux fuel n = [digitChar (n / 10), digitChar (n % 10)] := by
  rcases fuel with _ | f
  · omega
  · unfold natToCharsAux
    rw [if_neg (by omega), natToCharsAux_one f (n / 10) (by omega)]
    rfl

theorem natToCharsAux_three (fuel n : Nat) (hf : 2 ≤ fuel) (h1 : 100 ≤ n) (h2 : n < 1000) :
    natToCharsAux fuel n
      = [digitChar (n / 10 / 10), digitChar (n / 10 % 10), digitChar (n % 10)] := by
  rcases fuel with _ | f
  · omega
  · unfold natToCharsAux
    rw [if_neg (by omega), natToCharsAux_two f (n / 10) (by omega) (by omega) (by omega)]
    rfl

theorem natToCharsAux_four (fuel n : Nat) (hf : 3 ≤ fuel) (h1 : 1000 ≤ n) (h2 : n < 10000) :
    natToCharsAux fuel n
      = [digitChar (n / 10 / 10 / 10), digitChar (n / 10 / 10 % 10),
         digitChar (n / 10 % 10), digitChar (n % 10)] := by
  rcases fuel with _ | f
  · omega
  · unfold natToCharsAux
    rw [if_neg (by omega), natToCharsAux_three f (n / 10) (by omega) (by omega) (by omega)]
    rfl

theorem pad_shape2 (n : Nat) (h : n < 100) :
    ∃ c1 c2, padChars 2 (natToChars n) = [c1, c2]
      ∧ isDigitChar c1 = true ∧ isDigitChar c2 = true := by
  by_cases h1 : n < 10
  · refine ⟨'0', digitChar n, ?_, by decide, isDigitChar_digitChar n h1⟩
    unfold natToChars
    rw [natToCharsAux_one n n h1]
    rfl
  · refine ⟨digitChar (n / 10), digitChar (n % 10), ?_,
      isDigitChar_digitChar _ (by omega), isDigitChar_digitChar _ (by omega)⟩
    unfold natToChars
    rw [natToCharsAux_two n n (by omega) (by omega) h]
    rfl

theorem pad_shape4 (n : Nat) (h : n < 10000) :
    ∃ c1 c2 c3 c4, padChars 4 (natToChars n) = [c1, c2, c3, c4]
      ∧ isDigitChar c1 = true ∧ isDigitChar c2 = true
      ∧ isDigitChar c3 = true ∧ isDigitChar c4 = true := by
  by_cases k1 : n < 10
  · refine ⟨'0', '0', '0', digitChar n, ?_, by decide, by decide, by decide,
      isDigitChar_digitChar n k1⟩
    unfold natToChars
    rw [natToCharsAux_one n n k1]
    rfl
  · by_cases k2 : n < 100
    · refine ⟨'0', '0', digitChar (n / 10), digitChar (n % 10), ?_, by decide, by decide,
        isDigitChar_digitChar _ (by omega), isDigitChar_digitChar _ (by omega)⟩
      unfold natToChars
      rw [natToCharsAux_two n n (by omega) (by omega) k2]
      rfl
    · by_cases k3 : n < 1000
      · refine ⟨'0', digitChar (n / 10 / 10), digitChar (n / 10 % 10), digitChar (n % 10), ?_,
          by decide, isDigitChar_digitChar _ (by omega),
          isDigitChar_digitChar _ (by omega), isDigitChar_digitChar _ (by omega)⟩
        unfold natToChars
        rw [natToCharsAux_three n n (by omega) (by omega) k3]
        rfl
      · refine ⟨digitChar (n / 10 / 10 / 10), digitChar (n / 10 / 10 % 10),
          digitChar (n / 10 % 10), digitChar (n % 10), ?_,
          isDigitChar_digitChar _ (by omega), isDigitChar_digitChar _ (by omega),
          isDigitChar_digitChar _ (by omega), isDigitChar_digitChar _ (by omega)⟩
        unfold natToChars
        rw [natToCharsAux_four n n (by omega) (by omega) h]
        rfl

theorem foldl_zeros (k : Nat) :
    List.foldl (fun a c => a * 10 + (c.toNat - 48)) 0 (List.replicate k '0') = 0 := by
  induction k with
  | zero => rfl
  | succ j ih =>
    rw [List.replicate_succ, List.foldl_cons]
    exact ih

theorem digitsVal_padChars (w : Nat) (l : List Char) :
    digitsVal (padChars w l) = digitsVal l := by
  unfold padChars digitsVal
  rw [List.foldl_append, foldl_zeros]

theorem digitsVal_append_one (l : List Char) (c : Char) :
    digitsVal (l ++ [c]) = digitsVal l * 10 + (c.toNat - 48) := by
  unfold digitsVal
  rw [List.foldl_append]
  rfl

theorem digitsVal_natToCharsAux (fuel n : Nat) (h : n ≤ fuel) :
    digitsVal (natToCharsAux fuel n) = n := by
  induction fuel generalizing n with
  | zero =>
    have h0 : n = 0 := by omega
    subst h0
    rfl
  | succ f ih =>
    unfold natToCharsAux
    by_cases h10 : n < 10
    · rw [if_pos h10]
      unfold digitsVal
      rw [List.foldl_cons, List.foldl_nil, digitChar_toNat n h10]
      omega
    · rw [if_neg h10, digitsVal_append_one, ih (n / 10) (by omega),
        digitChar_toNat (n % 10) (by omega)]
      omega

theorem digitsVal_natToChars (n : Nat) : digitsVal (natToChars n) = n :=
  digitsVal_natToCharsAux n n (Nat.le_refl n)

/-! ## The RFC-3339 output form -/

/-- The character shape `"YYYY-MM-DDThh:mm:ssZ"` (surrounding JSON quotes,
four-digit year, two-digit fields, literal separators, trailing `Z`, no
fractional seconds). -/
def rfc3339ZShape (s : String) : Bool :=
  match s.data with
  | q1 :: y1 :: y2 :: y3 :: y4 :: s1 :: o1 :: o2 :: s2 :: d1 :: d2 :: s3
      :: j1 :: j2 :: s4 :: i1 :: i2 :: s5 :: e1 :: e2 :: s6 :: q2 :: [] =>
    (q1 == '"') && (q2 == '"') && (s1 == '-') && (s2 == '-') && (s3 == 'T')
      && (s4 == ':') && (s5 == ':') && (s6 == 'Z')
      && ([y1, y2, y3, y4, o1, o2, d1, d2, j1, j2, i1, i2, e1, e2]).all isDigitChar
  | _ => false

theorem appendIntW_nonneg (w : Nat) (x : Int) (h : 0 ≤ x) :
    appendIntW w x = padChars w (natToChars x.toNat) := by
  unfold appendIntW
  rw [if_neg (by omega)]

example : rfc3339ZShape "\"2009-02-13T23:31:30Z\"" = true := by decide
example : rfc3339ZShape "\"2009-02-13T23:31:30.5Z\"" = false := by decide

set_option maxHeartbeats 1000000 in
/-- C6 (amended): for every instant from year 1 through year 9999, the
timestamp codec's encoding is the string form `"YYYY-MM-DDThh:mm:ssZ"`:
the instant rendered in UTC, RFC-3339-compatible, with a trailing `Z` and
no fractional seconds. -/
theorem C6_timestamp_format_shape (t : JSONTime)
    (hlo : -62135596800 ≤ t.sec) (hhi : t.sec ≤ 253402300799) :
    rfc3339ZShape (JSONTime.MarshalJSON t) = true := by
  have hz1 : -719162 ≤ t.sec / 86400 := by omega
  have hz2 : t.sec / 86400 ≤ 2932896 := by omega
  obtain ⟨hy0, hy9⟩ := civil_year_bounds (t.sec / 86400) hz1 hz2
  obtain ⟨hm1, hm2, hd1, hd2⟩ := civil_month_day_bounds (t.sec / 86400)
  have hsod : (t.sec % 86400).toNat < 86400 := by omega
  obtain ⟨a1, a2, a3, a4, hy, ha1, ha2, ha3, ha4⟩ :=
    pad_shape4 (civilFromDays (t.sec / 86400)).1.toNat (by omega)
  obtain ⟨b1, b2, hmo, hb1, hb2⟩ := pad_shape2 (civilFromDays (t.sec / 86400)).2.1 (by omega)
  obtain ⟨c1, c2, hdd, hc1, hc2⟩ := pad_shape2 (civilFromDays (t.sec / 86400)).2.2 (by omega)
  obtain ⟨d1, d2, hhh, hdd1, hdd2⟩ := pad_shape2 ((t.sec % 86400).toNat / 3600) (by omega)
  obtain ⟨e1, e2, hmi, he1, he2⟩ := pad_shape2 ((t.sec % 86400).toNat % 3600 / 60) (by omega)
  obtain ⟨f1, f2, hss, hf1, hf2⟩ := pad_shape2 ((t.sec % 86400).toNat % 60) (by omega)
  unfold JSONTime.MarshalJSON rfc3339UTC
  simp only
  rw [appendIntW_nonneg 4 _ hy0, appendIntW_nonneg 2 _ (Int.natCast_nonneg _),
    appendIntW_nonneg 2 _ (Int.natCast_nonneg _), appendIntW_nonneg 2 _ (Int.natCast_nonneg _),
    appendIntW_nonneg 2 _ (Int.natCast_nonneg _), appendIntW_nonneg 2 _ (Int.natCast_nonneg _)]
  simp only [Int.toNat_natCast]
  rw [hy, hmo, hdd, hhh, hmi, hss]
  simp only [rfc3339ZShape, List.cons_append, List.nil_append, List.append_assoc]
  simp [ha1, ha2, ha3, ha4, hb1, hb2, hc1, hc2, hdd1, hdd2, he1, he2, hf1, hf2]

/-- C6 counterexample: at the instant 253402300800 (:= 10000-01-01T00:00:00
UTC, one second past year 9999) the encoding has a five-digit year, so it is
not of the claimed `"YYYY-MM-DDThh:mm:ssZ"` form; the claim's universal
quantification over every instant fails. -/
theorem C6_counterexample_year_10000 :
    rfc3339ZShape (JSONTime.MarshalJSON ⟨253402300800, 0⟩) = false := by decide

/-- Witness for C6 at the Unix epoch. -/
theorem C6_timestamp_format_shape_witness :
    rfc3339ZShape (JSONTime.MarshalJSON ⟨0, 0⟩) = true :=
  C6_timestamp_format_shape ⟨0, 0⟩ (by decide) (by decide)

/-- Modelled from the spec: an RFC-3339-compliant parser for the form the
codec emits (the response-parsing side of the pipeline is not part of
`types.go`; the spec only requires that "a timestamp encoded by the
timestamp codec and then parsed by any RFC-3339-compliant parser yields
the same instant").  It accepts `YYYY-MM-DDThh:mm:ssZ`, validates the
field ranges, and returns the instant as seconds since the Unix epoch. -/
def parseRFC3339Z (l : List Char) : Option Int :=
  match l with
  | y1 :: y2 :: y3 :: y4 :: '-' :: o1 :: o2 :: '-' :: d1 :: d2 :: 'T'
      :: j1 :: j2 :: ':' :: i1 :: i2 :: ':' :: e1 :: e2 :: 'Z' :: [] =>
    if ([y1, y2, y3, y4, o1, o2, d1, d2, j1, j2, i1, i2, e1, e2]).all isDigitChar then
      let y := digitsVal [y1, y2, y3, y4]
      let mo := digitsVal [o1, o2]
      let dd := digitsVal [d1, d2]
      let hh := digitsVal [j1, j2]
      let mi := digitsVal [i1, i2]
      let ss := digitsVal [e1, e2]
      if 1 ≤ mo ∧ mo ≤ 12 ∧ 1 ≤ dd ∧ dd ≤ 31 ∧ hh < 24 ∧ mi < 60 ∧ ss < 60 then
        some (daysFromCivil (y : Int) mo dd * 86400 + hh * 3600 + mi * 60 + ss)
      else none
    else none
  | _ => none

example : parseRFC3339Z ("2009-02-13T23:31:30Z".data) = some 1234567890 := by decide
example : parseRFC3339Z ("1970-01-01T00:00:00Z".data) = some 0 := by decide

set_option maxHeartbeats 1000000 in
/-- C7 (amended): for every instant from year 1 through year 9999,
encoding it with the timestamp codec and parsing the RFC-3339 text with an
RFC-3339-compliant parser yields the same instant truncated to whole
seconds (the sub-second component is dropped by the codec). -/
theorem C7_timestamp_roundtrip (t : JSONTime)
    (hlo : -62135596800 ≤ t.sec) (hhi : t.sec ≤ 253402300799) :
    parseRFC3339Z (rfc3339UTC t) = some t.sec := by
  have hz1 : -719162 ≤ t.sec / 86400 := by omega
  have hz2 : t.sec / 86400 ≤ 2932896 := by omega
  obtain ⟨hy0, hy9⟩ := civil_year_bounds (t.sec / 86400) hz1 hz2
  obtain ⟨hm1, hm2, hd1, hd2⟩ := civil_month_day_bounds (t.sec / 86400)
  have hsod : (t.sec % 86400).toNat < 86400 := by omega
  obtain ⟨a1, a2, a3, a4, hy, ha1, ha2, ha3, ha4⟩ :=
    pad_shape4 (civilFromDays (t.sec / 86400)).1.toNat (by omega)
  obtain ⟨b1, b2, hmo, hb1, hb2⟩ := pad_shape2 (civilFromDays (t.sec / 86400)).2.1 (by omega)
  obtain ⟨c1, c2, hdd, hc1, hc2⟩ := pad_shape2 (civilFromDays (t.sec / 86400)).2.2 (by omega)
  obtain ⟨d1, d2, hhh, hdd1, hdd2⟩ := pad_shape2 ((t.sec % 86400).toNat / 3600) (by omega)
  obtain ⟨e1, e2, hmi, he1, he2⟩ := pad_shape2 ((t.sec % 86400).toNat % 3600 / 60) (by omega)
  obtain ⟨f1, f2, hss, hf1, hf2⟩ := pad_shape2 ((t.sec % 86400).toNat % 60) (by omega)
  have hvy : digitsVal [a1, a2, a3, a4] = (civilFromDays (t.sec / 86400)).1.toNat := by
    rw [← hy, digitsVal_padChars, digitsVal_natToChars]
  have hvmo : digitsVal [b1, b2] = (civilFromDays (t.sec / 86400)).2.1 := by
    rw [← hmo, digitsVal_padChars, digitsVal_natToChars]
  have hvdd : digitsVal [c1, c2] = (civilFromDays (t.sec / 86400)).2.2 := by
    rw [← hdd, digitsVal_padChars, digitsVal_natToChars]
  have hvhh : digitsVal [d1, d2] = (t.sec % 86400).toNat / 3600 := by
    rw [← hhh, digitsVal_padChars, digitsVal_natToChars]
  have hvmi : digitsVal [e1, e2] = (t.sec % 86400).toNat % 3600 / 60 := by
    rw [← hmi, digitsVal_padChars, digitsVal_natToChars]
  have hvss : digitsVal [f1, f2] = (t.sec % 86400).toNat % 60 := by
    rw [← hss, digitsVal_padChars, digitsVal_natToChars]
  unfold rfc3339UTC
  simp only
  rw [appendIntW_nonneg 4 _ hy0, appendIntW_nonneg 2 _ (Int.natCast_nonneg _),
    appendIntW_nonneg 2 _ (Int.natCast_nonneg _), appendIntW_nonneg 2 _ (Int.natCast_nonneg _),
    appendIntW_nonneg 2 _ (Int.natCast_nonneg _), appendIntW_nonneg 2 _ (Int.natCast_nonneg _)]
  simp only [Int.toNat_natCast]
  rw [hy, hmo, hdd, hhh, hmi, hss]
  simp only [parseRFC3339Z, List.cons_append, List.nil_append, List.append_assoc]
  rw [if_pos (by simp [ha1, ha2, ha3, ha4, hb1, hb2, hc1, hc2, hdd1, hdd2, he1, he2, hf1, hf2])]
  rw [hvy, hvmo, hvdd, hvhh, hvmi, hvss]
  rw [if_pos (by refine ⟨hm1, hm2, hd1, hd2, by omega, by omega, by omega⟩)]
  rw [Int.toNat_of_nonneg hy0, civil_roundtrip]
  simp only [Option.some.injEq]
  omega

/-- C7 counterexample: at the instant 253402300800 (10000-01-01T00:00:00
UTC) the codec emits a five-digit year, which an RFC-3339 parser rejects,
so the encode-then-parse round trip does not return the instant; the
claim's universal quantification over every instant fails. -/
theorem C7_counterexample_year_10000 :
    ¬ parseRFC3339Z (rfc3339UTC ⟨253402300800, 0⟩) = some 253402300800 := by decide

/-- Witness for C7 at the Unix epoch (with a nonzero sub-second part,
which the round trip truncates away). -/
theorem C7_timestamp_roundtrip_witness :
    parseRFC3339Z (rfc3339UTC ⟨0, 500000000⟩) = some 0 :=
  C7_timestamp_roundtrip ⟨0, 500000000⟩ (by decide) (by decide)

/-! ## The structured error shape (`ErrorResponse`) -/

/-- The originating `http.Request`: the fields `ErrorResponse.Error` reads. -/
structure GoRequest where
  Method : String
  URL : String

/-- The `http.Response` carried by an `ErrorResponse` (`nil` = `none`),
with its originating request (`nil` = `none`) and status code. -/
structure GoResponse where
  Request : Option GoRequest
  StatusCode : Int

/-- The `Link` struct of `types.go`. -/
structure Link where
  Href : String
  Rel : String
  Method : String
  Description : String
  Enctype : String

/-- The `ErrorResponseDetail` struct of `types.go`: one field-level entry. -/
structure ErrorResponseDetail where
  Field : String
  Issue : String
  Links : List Link

/-- The `ErrorResponse` struct of `types.go`. -/
structure ErrorResponse where
  Response : Option GoResponse
  Name : String
  DebugID : String
  Message : String
  InformationLink : String
  Details : List ErrorResponseDetail

/-- Go `fmt`'s `%+v` of a `Link` value. -/
def formatLinkPlus (l : Link) : String :=
  "\x7bHref:" ++ l.Href ++ " Rel:" ++ l.Rel ++ " Method:" ++ l.Method
    ++ " Description:" ++ l.Description ++ " Enctype:" ++ l.Enctype ++ "\x7d"

/-- Go `fmt`'s `%+v` of an `ErrorResponseDetail` value. -/
def formatDetailPlus (d : ErrorResponseDetail) : String :=
  "\x7bField:" ++ d.Field ++ " Issue:" ++ d.Issue ++ " Links:["
    ++ String.intercalate " " (d.Links.map formatLinkPlus) ++ "]\x7d"

/-- Go `fmt`'s `%+v` of a `[]ErrorResponseDetail` slice. -/
def formatDetailsPlus (ds : List ErrorResponseDetail) : String :=
  "[" ++ String.intercalate " " (ds.map formatDetailPlus) ++ "]"

/-- The format string `"%v %v: %d %s, %+v"` of `ErrorResponse.Error`
applied to request method, request URL, status code, message and details. -/
def errorResponseFormat (method url : String) (status : Int) (msg : String)
    (ds : List ErrorResponseDetail) : String :=
  method ++ " " ++ url ++ ": " ++ toString status ++ " " ++ msg ++ ", " ++ formatDetailsPlus ds

/-- `ErrorResponse.Error` from `types.go`:
`fmt.Sprintf("%v %v: %d %s, %+v", r.Response.Request.Method,
r.Response.Request.URL, r.Response.StatusCode, r.Message, r.Details)`.
The Go method dereferences `r.Response` and `r.Response.Request` without a
nil check; `none` models the nil-pointer panic. -/
def ErrorResponse.Error (r : ErrorResponse) : Option String :=
  match r.Response with
  | none => none
  | some resp =>
    match resp.Request with
    | none => none
    | some req =>
      some (errorResponseFormat req.Method req.URL resp.StatusCode r.Message r.Details)

/-- C9: `ErrorResponse.Error` is total exactly when `Response` and
`Response.Request` are both non-nil; then it returns the formatted message
built from the request method, URL, status code, message and details, and
with a nil `Response` or nil `Response.Request` it dereferences a nil
pointer (modelled as `none`). -/
theorem C9_error_method_nil_safety :
    (∀ (r : ErrorResponse) (resp : GoResponse) (req : GoRequest),
      r.Response = some resp → resp.Request = some req →
      ErrorResponse.Error r
        = some (errorResponseFormat req.Method req.URL resp.StatusCode r.Message r.Details)) ∧
    (∀ r : ErrorResponse, r.Response = none → ErrorResponse.Error r = none) ∧
    (∀ (r : ErrorResponse) (resp : GoResponse), r.Response = some resp →
      resp.Request = none → ErrorResponse.Error r = none) := by
  refine ⟨fun r resp req h1 h2 => ?_, fun r h1 => ?_, fun r resp h1 h2 => ?_⟩
  · simp only [ErrorResponse.Error, h1, h2]
  · simp only [ErrorResponse.Error, h1]
  · simp only [ErrorResponse.Error, h1, h2]

/-- Witness for C9 at a concrete error response. -/
theorem C9_error_method_nil_safety_witness :
    ErrorResponse.Error
        ⟨some ⟨some ⟨"POST", "https://api.sandbox.paypal.com/v2/checkout/orders"⟩, 422⟩,
          "VALIDATION_ERROR", "", "Invalid request", "", []⟩
      = some (errorResponseFormat "POST" "https://api.sandbox.paypal.com/v2/checkout/orders"
          422 "Invalid request" []) :=
  C9_error_method_nil_safety.1
    ⟨some ⟨some ⟨"POST", "https://api.sandbox.paypal.com/v2/checkout/orders"⟩, 422⟩,
      "VALIDATION_ERROR", "", "Invalid request", "", []⟩
    ⟨some ⟨"POST", "https://api.sandbox.paypal.com/v2/checkout/orders"⟩, 422⟩
    ⟨"POST", "https://api.sandbox.paypal.com/v2/checkout/orders"⟩ rfl rfl

/-! ## The response decoder (non-2xx path) -/

/-- First value stored under a key of a decoded JSON object. -/
def lookupField (fields : List (String × Json)) (key : String) : Option Json :=
  (fields.find? (fun p => p.1 == key)).map (fun p => p.2)

/-- A string-typed object field: an absent key keeps the zero value `""`,
a present string is taken as is, and any other type is a decode failure. -/
def decodeStringField (fields : List (String × Json)) (key : String) : Option String :=
  match lookupField fields key with
  | none => some ""
  | some (.str s) => some s
  | some _ => none

/-- Modelled from the spec: decoding one entry of the `details` list of a
structured error body (a field name and an issue code; the repository's
decode path outside `types.go` does this via `encoding/json`). -/
def decodeDetail : Json → Option ErrorResponseDetail
  | .obj fs =>
    match decodeStringField fs "field", decodeStringField fs "issue" with
    | some f, some i => some ⟨f, i, []⟩
    | _, _ => none
  | _ => none

/-- Modelled from the spec: decoding a structured error body into the
`ErrorResponse` shape — machine-readable `name`, correlation `debug_id`,
human-readable `message`, `information_link`, and the field-level
`details` list. -/
def decodeErrorBody : Json → Option ErrorResponse
  | .obj fs =>
    match decodeStringField fs "name", decodeStringField fs "debug_id",
        decodeStringField fs "message", decodeStringField fs "information_link",
        (match lookupField fs "details" with
          | none => some []
          | some (.arr l) => l.mapM decodeDetail
          | some _ => none) with
    | some n, some dbg, some m, some il, some ds =>
      some { Response := none, Name := n, DebugID := dbg, Message := m,
             InformationLink := il, Details := ds }
    | _, _, _, _, _ => none
  | _ => none

/-- Whether a status code lies in the success range 200-299. -/
def is2xx (status : Int) : Bool := decide (200 ≤ status) && decide (status ≤ 299)

/-- Modelled from the spec: `ResponseDecoder.Decode` for a completed
response (the repository implements this outside `types.go`).  A 2xx
status produces no error (`none`); any other status decodes the body into
the `ErrorResponse` shape, populates it with the original request and the
status code, and returns it as the call's error; a body that fails to
decode falls back to a minimal structured error carrying only the status
code and a generic message. -/
def Decode (req : GoRequest) (status : Int) (body : Json) : Option ErrorResponse :=
  if is2xx status then none
  else
    let resp : GoResponse := { Request := some req, StatusCode := status }
    match decodeErrorBody body with
    | some e => some { e with Response := some resp }
    | none =>
      some ⟨some resp, "", "", "unable to parse error response body", "", []⟩

/-- The error body of the spec's Scenario C:
`{"name":"VALIDATION_ERROR","message":"Invalid request","details":[{"field":"amount","issue":"REQUIRED"}]}`. -/
def scenarioCBody : Json :=
  Json.obj [("name", Json.str "VALIDATION_ERROR"), ("message", Json.str "Invalid request"),
    ("details", Json.arr [Json.obj [("field", Json.str "amount"), ("issue", Json.str "REQUIRED")]])]

/-- C8: a non-2xx response (status 422) with the Scenario C structured
error body fails the call with a structured error exposing the status
code, the machine-readable name, the human-readable message, exactly one
detail entry (field `amount`, issue `REQUIRED`), and — through its `Error`
method — the originating request's method and URL. -/
theorem C8_remote_error_scenario (req : GoRequest) :
    ∃ e, Decode req 422 scenarioCBody = some e
      ∧ e.Name = "VALIDATION_ERROR"
      ∧ e.Message = "Invalid request"
      ∧ e.Details = [⟨"amount", "REQUIRED", []⟩]
      ∧ e.Response = some ⟨some req, 422⟩
      ∧ ErrorResponse.Error e
          = some (errorResponseFormat req.Method req.URL 422 "Invalid request"
              [⟨"amount", "REQUIRED", []⟩]) := by
  refine ⟨_, rfl, rfl, rfl, rfl, rfl, rfl⟩

/-! ## The token manager -/

/-- `RequestNewTokenBeforeExpiresIn` from `types.go`:
`time.Duration(60) * time.Second`, held here in seconds. -/
def RequestNewTokenBeforeExpiresIn : Int := 60

/-- The `TokenResponse` struct of `types.go` (the `/oauth2/token`
response); `ExpiresIn` is the decoded `expirationTime`. -/
structure TokenResponse where
  RefreshToken : String
  Token : String
  «Type» : String
  ExpiresIn : expirationTime

/-- The token-owning part of the `Client` struct of `types.go` (`Token`,
`tokenExpiresAt`), with a ghost `fetchCount` counting token-endpoint
network fetches.  Instants are seconds since the Unix epoch.  The
`sync.Mutex` of `Client` serializes all accesses to this state, so every
concurrent execution is a sequence of whole `EnsureValid` calls. -/
structure ClientState where
  Token : Option TokenResponse
  tokenExpiresAt : Int
  fetchCount : Nat

/-- Modelled from the spec: `TokenManager.EnsureValid(forceRefresh)` (the
token-manager implementation lives outside `types.go`; `types.go` only
declares the `Client` state and the 60-second safety margin).  If a
current token exists, its expiry minus the safety margin is still in the
future, and `forceRefresh` is false, the cached token is returned with no
network call; otherwise the token endpoint is fetched (`fresh` is the
token it would return at instant `now`), the absolute expiry is computed
as fetch time plus the relative `ExpiresIn`, and the stored token and
expiry are replaced atomically. -/
def EnsureValid (now : Int) (forceRefresh : Bool) (fresh : TokenResponse)
    (st : ClientState) : TokenResponse × ClientState :=
  match st.Token with
  | some tok =>
    if forceRefresh = false ∧ now < st.tokenExpiresAt - RequestNewTokenBeforeExpiresIn then
      (tok, st)
    else
      (fresh, { Token := some fresh, tokenExpiresAt := now + fresh.ExpiresIn,
                fetchCount := st.fetchCount + 1 })
  | none =>
      (fresh, { Token := some fresh, tokenExpiresAt := now + fresh.ExpiresIn,
                fetchCount := st.fetchCount + 1 })

/-- `k` successive `EnsureValid(false)` calls at the same instant. -/
def iterateEnsure (now : Int) (fresh : TokenResponse) : Nat → ClientState → ClientState
  | 0, st => st
  | k + 1, st => iterateEnsure now fresh k (EnsureValid now false fresh st).2

/-- `n` callers whose `EnsureValid(false)` calls are serialized by the
client mutex at the same instant: the list of tokens they receive, and
the final state. -/
def runCallers (now : Int) (fresh : TokenResponse) :
    Nat → ClientState → List TokenResponse × ClientState
  | 0, st => ([], st)
  | k + 1, st =>
    let step := EnsureValid now false fresh st
    let rest := runCallers now fresh k step.2
    (step.1 :: rest.1, rest.2)

theorem ensureValid_cached (now : Int) (fresh tok : TokenResponse) (st : ClientState)
    (hTok : st.Token = some tok)
    (hFresh : now < st.tokenExpiresAt - RequestNewTokenBeforeExpiresIn) :
    EnsureValid now false fresh st = (tok, st) := by
  simp [EnsureValid, hTok, hFresh]

theorem ensureValid_fresh_valid (now : Int) (fresh : TokenResponse) (st : ClientState)
    (hLife : RequestNewTokenBeforeExpiresIn < fresh.ExpiresIn) :
    ((EnsureValid now false fresh st).2.Token = some fresh
        ∧ now < (EnsureValid now false fresh st).2.tokenExpiresAt - RequestNewTokenBeforeExpiresIn
        ∧ (EnsureValid now false fresh st).2.fetchCount = st.fetchCount + 1)
      ∨ (EnsureValid now false fresh st).2 = st := by
  unfold EnsureValid
  cases hTok : st.Token with
  | none => exact Or.inl ⟨rfl, by simp only; omega, rfl⟩
  | some tok =>
    simp only
    split
    · exact Or.inr rfl
    · exact Or.inl ⟨rfl, by simp only; omega, rfl⟩

theorem iterateEnsure_stable (now : Int) (fresh tok : TokenResponse) (k : Nat)
    (st : ClientState) (hTok : st.Token = some tok)
    (hFresh : now < st.tokenExpiresAt - RequestNewTokenBeforeExpiresIn) :
    iterateEnsure now fresh k st = st := by
  induction k with
  | zero => rfl
  | succ j ih =>
    unfold iterateEnsure
    rw [ensureValid_cached now fresh tok st hTok hFresh]
    exact ih

theorem runCallers_stable (now : Int) (fresh tok : TokenResponse) (k : Nat)
    (st : ClientState) (hTok : st.Token = some tok)
    (hFresh : now < st.tokenExpiresAt - RequestNewTokenBeforeExpiresIn) :
    runCallers now fresh k st = (List.replicate k tok, st) := by
  induction k with
  | zero => rfl
  | succ j ih =>
    unfold runCallers
    simp only [ensureValid_cached now fresh tok st hTok hFresh, ih, List.replicate_succ]

theorem ensureValid_post (now : Int) (fresh : TokenResponse) (st : ClientState)
    (hLife : RequestNewTokenBeforeExpiresIn < fresh.ExpiresIn) :
    ∃ tok, (EnsureValid now false fresh st).2.Token = some tok
      ∧ now < (EnsureValid now false fresh st).2.tokenExpiresAt - RequestNewTokenBeforeExpiresIn
      ∧ (EnsureValid now false fresh st).2.fetchCount ≤ st.fetchCount + 1 := by
  unfold EnsureValid
  cases hTok : st.Token with
  | none =>
    refine ⟨fresh, rfl, ?_, Nat.le_refl _⟩
    show now < now + fresh.ExpiresIn - RequestNewTokenBeforeExpiresIn
    omega
  | some tok =>
    simp only
    split
    · rename_i hcond
      exact ⟨tok, hTok, hcond.2, Nat.le_succ _⟩
    · refine ⟨fresh, rfl, ?_, Nat.le_refl _⟩
      show now < now + fresh.ExpiresIn - RequestNewTokenBeforeExpiresIn
      omega

/-- C1: whenever a current token exists and its recorded expiry minus the
60-second safety margin is still in the future, `EnsureValid(false)`
returns the cached token and leaves the state — including the
network-fetch count — untouched; consequently, repeated
`EnsureValid(false)` calls with no elapsed time perform at most one
network fetch in total (for a token endpoint whose tokens outlive the
safety margin). -/
theorem C1_cached_token_no_fetch (now : Int) (fresh : TokenResponse) :
    (∀ (st : ClientState) (tok : TokenResponse), st.Token = some tok →
        now < st.tokenExpiresAt - RequestNewTokenBeforeExpiresIn →
        EnsureValid now false fresh st = (tok, st)) ∧
    (RequestNewTokenBeforeExpiresIn < fresh.ExpiresIn →
      ∀ (st : ClientState) (k : Nat),
        (iterateEnsure now fresh k st).fetchCount ≤ st.fetchCount + 1) := by
  constructor
  · exact fun st tok h1 h2 => ensureValid_cached now fresh tok st h1 h2
  · intro hLife st k
    cases k with
    | zero => simp [iterateEnsure]
    | succ j =>
      unfold iterateEnsure
      obtain ⟨tok, hT, hF, hC⟩ := ensureValid_post now fresh st hLife
      rw [iterateEnsure_stable now fresh tok j _ hT hF]
      omega

/-- Witness for C1: with a token valid for another 3600 seconds, a call
returns it unchanged, and three stale-state calls fetch only once. -/
theorem C1_cached_token_no_fetch_witness :
    EnsureValid 0 false ⟨"", "T2", "B", 3600⟩ ⟨some ⟨"", "T1", "B", 3600⟩, 3600, 1⟩
        = (⟨"", "T1", "B", 3600⟩, ⟨some ⟨"", "T1", "B", 3600⟩, 3600, 1⟩) ∧
    (iterateEnsure 0 ⟨"", "T2", "B", 3600⟩ 3 ⟨none, 0, 0⟩).fetchCount ≤ 0 + 1 :=
  ⟨(C1_cached_token_no_fetch 0 ⟨"", "T2", "B", 3600⟩).1
      ⟨some ⟨"", "T1", "B", 3600⟩, 3600, 1⟩ ⟨"", "T1", "B", 3600⟩ rfl (by decide),
   (C1_cached_token_no_fetch 0 ⟨"", "T2", "B", 3600⟩).2 (by decide) ⟨none, 0, 0⟩ 3⟩

/-- C2: when the stored token is absent or within the safety margin of its
expiry, any number `n ≥ 1` of callers whose `EnsureValid(false)` calls are
serialized by the client mutex at one instant trigger exactly one
token-endpoint fetch, and every caller receives the same renewed token. -/
theorem C2_serialize_and_share (now : Int) (fresh : TokenResponse) (st : ClientState) (n : Nat)
    (hStale : ∀ tok, st.Token = some tok →
      st.tokenExpiresAt - RequestNewTokenBeforeExpiresIn ≤ now)
    (hLife : RequestNewTokenBeforeExpiresIn < fresh.ExpiresIn)
    (hn : 1 ≤ n) :
    (runCallers now fresh n st).2.fetchCount = st.fetchCount + 1 ∧
    ∀ t ∈ (runCallers now fresh n st).1, t = fresh := by
  rcases n with _ | k
  · omega
  · have hFetch : EnsureValid now false fresh st
        = (fresh, { Token := some fresh, tokenExpiresAt := now + fresh.ExpiresIn,
                    fetchCount := st.fetchCount + 1 }) := by
      unfold EnsureValid
      cases hTok : st.Token with
      | none => rfl
      | some tok =>
        simp only
        rw [if_neg]
        rintro ⟨-, h2⟩
        exact absurd h2 (by have := hStale tok hTok; omega)
    simp only [runCallers]
    rw [hFetch]
    simp only
    rw [runCallers_stable now fresh fresh k _ rfl (by simp only; omega)]
    refine ⟨rfl, ?_⟩
    intro t ht
    simp only [List.mem_cons] at ht
    rcases ht with h | h
    · exact h
    · exact List.eq_of_mem_replicate h

/-- Witness for C2: three callers against an empty token cache fetch once
and all receive the fresh token. -/
theorem C2_serialize_and_share_witness :
    (runCallers 0 ⟨"", "T2", "B", 3600⟩ 3 ⟨none, 0, 0⟩).2.fetchCount = 0 + 1 ∧
    ∀ t ∈ (runCallers 0 ⟨"", "T2", "B", 3600⟩ 3 ⟨none, 0, 0⟩).1, t = ⟨"", "T2", "B", 3600⟩ :=
  C2_serialize_and_share 0 ⟨"", "T2", "B", 3600⟩ ⟨none, 0, 0⟩ 3
    (fun tok h => Option.noConfusion h) (by decide) (by decide)

/-- C3: after any `EnsureValid` call the returned token is exactly the one
current token stored in the single client cell (so at most one token is
current from any caller's perspective), and the call either returned a
cached token whose recorded expiry is still in the future with the state
untouched, or renewed the token first (one fetch recorded). -/
theorem C3_no_expired_token_exposed (now : Int) (b : Bool) (fresh : TokenResponse)
    (st : ClientState) :
    (EnsureValid now b fresh st).2.Token = some (EnsureValid now b fresh st).1 ∧
    (((EnsureValid now b fresh st).2 = st ∧ now < st.tokenExpiresAt) ∨
      ((EnsureValid now b fresh st).1 = fresh ∧
        (EnsureValid now b fresh st).2.fetchCount = st.fetchCount + 1)) := by
  have h60 : RequestNewTokenBeforeExpiresIn = 60 := rfl
  unfold EnsureValid
  cases hTok : st.Token with
  | none => exact ⟨rfl, Or.inr ⟨rfl, rfl⟩⟩
  | some tok =>
    simp only
    split
    · rename_i hcond
      exact ⟨hTok, Or.inl ⟨rfl, by have := hcond.2; omega⟩⟩
    · exact ⟨rfl, Or.inr ⟨rfl, rfl⟩⟩
